import Mathlib

/-!
Verification development for the NAASH interactive shell (src/index.ts).

Strings from the JavaScript source are embedded as lists of characters
(`Str`); every definition below is translated from the corresponding
function in `src/index.ts` unless its doc comment says it is modelled
from the spec (the helpers that live in `util/util.ts`, which is not
part of the provided sources, and the external AI / clipboard / ANSI
collaborators, which are abstracted as parameters).
-/

/-- Character lists standing for JavaScript strings. -/
abbrev Str := List Char

/-- JavaScript `s.toLowerCase()` restricted to the ASCII commands the
shell works with: character-wise lowercasing. -/
def lower (s : Str) : Str := s.map Char.toLower

/-- Whitespace characters recognised by the model of `String.prototype.trim`. -/
def isWs (c : Char) : Bool := c == ' ' || c == '\t' || c == '\n' || c == '\r'

/-- JavaScript `s.trim()`: drop leading and trailing whitespace. -/
def trimJs (s : Str) : Str :=
  ((s.dropWhile isWs).reverse.dropWhile isWs).reverse

/-- JavaScript `command.split(" ")`: split on every single space,
keeping empty chunks, always returning at least one chunk. -/
def splitOnSpace : Str → List Str
  | [] => [[]]
  | c :: rest =>
    match splitOnSpace rest with
    | [] => [[]]
    | chunk :: more => if c == ' ' then [] :: chunk :: more else (c :: chunk) :: more

/-- JavaScript `parts.join(" ")`. -/
def joinSpace : List Str → Str
  | [] => []
  | [s] => s
  | s :: rest => s ++ ' ' :: joinSpace rest

/-- JavaScript `Array.prototype.findLast`: the last element satisfying
the predicate, scanning from the end. -/
def jsFindLast (p : Str → Bool) (l : List Str) : Option Str :=
  l.reverse.find? p

/-- Truthiness of a JavaScript string-or-undefined value: `undefined`
and the empty string are falsy. -/
def jsTruthy : Option Str → Bool
  | none => false
  | some s => !s.isEmpty

/-- The hard-coded `commonCommands` array inside `updateSuggestion`. -/
def commonCommands : List Str :=
  [("git status".toList), ("git add .".toList), ("git commit -m".toList),
   ("git push origin".toList), ("npm install".toList), ("npm run dev".toList),
   ("ls -la".toList), ("cd ..".toList), ("docker ps".toList),
   ("docker-compose up".toList), ("history".toList), ("exit".toList)]

/-- The `updateSuggestion` function of src/index.ts: the new value of
`currentSuggestion` as a function of the line buffer (`input`), the
readline cursor, and the session/historical candidate pools.  The
source's chain of `if (!currentSuggestion)` reassignments becomes a
chain of lets. -/
def updateSuggestion (input : Str) (cursor : Nat) (curSessionCmds histCmds : List Str) : Str :=
  if trimJs input = [] then []
  else
    let textBeforeCursor := input.take cursor
    let searchText := lower textBeforeCursor
    let s1 := (jsFindLast (fun cmd => searchText.isPrefixOf (lower cmd)) curSessionCmds).getD []
    let s2 := if s1 = [] then (jsFindLast (fun cmd => searchText.isPrefixOf (lower cmd)) histCmds).getD [] else s1
    let s3 := if s2 = [] then (jsFindLast (fun cmd => searchText.isPrefixOf (lower cmd)) commonCommands).getD [] else s2
    s3

/-- One pool's contribution: the last entry whose lowercase form starts
with the search text, or the empty string when there is none. -/
def poolScan (searchText : Str) (pool : List Str) : Str :=
  (jsFindLast (fun cmd => searchText.isPrefixOf (lower cmd)) pool).getD []

/-- Reference form of the scan the code performs: the first pool (in
order) whose `poolScan` result is a non-empty string wins; pools whose
result is empty — because nothing matched, or because the last matching
entry is itself the empty string — are skipped. -/
def firstNonEmptyMatch (searchText : Str) : List (List Str) → Str
  | [] => []
  | pool :: rest =>
    if poolScan searchText pool = [] then firstNonEmptyMatch searchText rest
    else poolScan searchText pool

/-- Formalisation of claim C1's wording, for comparison with the code:
return, from the first pool containing any match, the last entry whose
lowercase form starts with the search text; empty string if no pool
contains a match. -/
def claimFirstPoolMatch (searchText : Str) : List (List Str) → Str
  | [] => []
  | pool :: rest =>
    match jsFindLast (fun cmd => searchText.isPrefixOf (lower cmd)) pool with
    | some m => m
    | none => claimFirstPoolMatch searchText rest

theorem updateSuggestion_spec (input : Str) (cursor : Nat) (curSessionCmds histCmds : List Str)
    (h : ¬ trimJs input = []) :
    updateSuggestion input cursor curSessionCmds histCmds =
      firstNonEmptyMatch (lower (input.take cursor)) [curSessionCmds, histCmds, commonCommands] := by
  simp only [updateSuggestion, if_neg h]
  by_cases e1 : poolScan (lower (input.take cursor)) curSessionCmds = [] <;>
  by_cases e2 : poolScan (lower (input.take cursor)) histCmds = [] <;>
  by_cases e3 : poolScan (lower (input.take cursor)) commonCommands = [] <;>
  simp_all [firstNonEmptyMatch, poolScan]

/-- Taking a prefix of a list yields a `isPrefixOf`-prefix of it. -/
theorem isPrefixOf_take (l : Str) (n : Nat) : (l.take n).isPrefixOf l = true := by
  induction l generalizing n with
  | nil => cases n <;> simp [ List.isPrefixOf]
  | cons a t ih =>
    cases n with
    | zero => simp [ List.isPrefixOf]
    | succ m => simpa [ List.isPrefixOf] using ih m

/-- Transitivity of the boolean prefix test on character lists. -/
theorem isPrefixOf_trans {l1 l2 l3 : Str} (h1 : l1.isPrefixOf l2 = true)
    (h2 : l2.isPrefixOf l3 = true) : l1.isPrefixOf l3 = true := by
  induction l1 generalizing l2 l3 with
  | nil => simp [ List.isPrefixOf]
  | cons a as ih =>
    cases l2 with
    | nil => simp [ List.isPrefixOf] at h1
    | cons b bs =>
      cases l3 with
      | nil => simp [ List.isPrefixOf] at h2
      | cons c cs =>
        simp only [ List.isPrefixOf, Bool.and_eq_true, beq_iff_eq] at h1 h2 ⊢
        exact ⟨h1.1.trans h2.1, ih h1.2 h2.2⟩

/-- Mapping any character function preserves the boolean prefix test. -/
theorem isPrefixOf_map (f : Char → Char) {l1 l2 : Str} (h : l1.isPrefixOf l2 = true) :
    (l1.map f).isPrefixOf (l2.map f) = true := by
  induction l1 generalizing l2 with
  | nil => simp [ List.isPrefixOf]
  | cons a as ih =>
    cases l2 with
    | nil => simp [ List.isPrefixOf] at h
    | cons b bs =>
      simp only [ List.map_cons, List.isPrefixOf, Bool.and_eq_true, beq_iff_eq] at h ⊢
      exact ⟨congrArg f h.1, ih h.2⟩

/-- The readline-facing state read by the overridden `rl._refreshLine`:
the live suggestion slot, the authoritative line buffer and cursor, and
the `bypassRlLine` flag set by the clipboard worker. -/
structure RenderState where
  currentSuggestion : Str
  line : Str
  cursor : Nat
  bypassRlLine : Bool
deriving DecidableEq

/-- The overridden `rl._refreshLine` of src/index.ts, reduced to the
ghost text it emits: `some g` when the dim completion `g` is written
after the visible buffer, `none` when the dim write is skipped (guard
fails) or the original refresh runs instead. -/
def refreshGhost (st : RenderState) : Option Str :=
  if !st.currentSuggestion.isEmpty && (!st.line.isEmpty || st.bypassRlLine) then
    if st.line.isPrefixOf st.currentSuggestion then
      some (st.currentSuggestion.drop st.cursor)
    else none
  else none

/-- The `command` field of a `CommandLog` record (src/types.ts shape as
built by `logInit`). -/
structure CommandDesc where
  raw : Str
  executable : Str
  arguments : List Str
  cwd : Str
deriving DecidableEq

/-- The `output` field of a `CommandLog` record; `err` models the
optional `error` property, absent (`none`) until an error event. -/
structure CommandOutput where
  stderr : Str
  exitCode : Int
  err : Option Str
deriving DecidableEq

/-- The `metadata` field of a `CommandLog` record. -/
structure CommandMeta where
  user : Str
  platform : Str
  shell : Str
deriving DecidableEq

/-- One structured record of the command failure log. -/
structure CommandLog where
  id : Str
  timestamp : Str
  command : CommandDesc
  output : CommandOutput
  metadata : CommandMeta
deriving DecidableEq

/-- The `logInit` function of src/index.ts.  The ambient values it reads
(`generateId()`, the ISO timestamp, `process.cwd()`, `os.userInfo()`,
`process.platform`, `$SHELL`) are passed as parameters. -/
def logInit (command id timestamp cwd user platform shell : Str) : CommandLog :=
  { id := id
    timestamp := timestamp
    command :=
      { raw := command
        executable := (splitOnSpace command).headD []
        arguments := (splitOnSpace command).tail
        cwd := cwd }
    output := { stderr := [], exitCode := 0, err := none }
    metadata := { user := user, platform := platform, shell := shell } }

/-- The state touched by `runTheCommand`'s event handlers: the in-memory
`commandLog`, the persisted `.t_error` file contents (`none` while the
file does not exist), the `.t_history` lines, the session command pool,
and how many times `prompt()` has fired. -/
structure ExecState where
  commandLog : List CommandLog
  errorFile : Option (List CommandLog)
  history : List Str
  session : List Str
  prompts : Nat
deriving DecidableEq

/-- JavaScript `code || 0` on a number-or-null exit code: `null` and `0`
are falsy and give the default. -/
def jsNumOr (code : Option Int) (d : Int) : Int :=
  match code with
  | none => d
  | some c => if c = 0 then d else c

/-- The log entry as mutated by the close handler:
`logEntry.output.exitCode = code || 0`. -/
def closedEntry (code : Option Int) (e : CommandLog) : CommandLog :=
  { e with output := { e.output with exitCode := jsNumOr code 0 } }

/-- The `pro.on("close", ...)` handler of `runTheCommand`: record the
exit code, persist the entry when the raw close code differs from `0`
(so also when it is `null`), then append the raw command to the history
file and the session pool and issue the next prompt.  The history and
log writes delegate to `saveToHistory` / `saveOutputToFile`
(util/util.ts, absent from src/), modelled from the spec: the former
appends one line, the latter overwrites the JSON log file with the full
in-memory sequence. -/
def onClose (command : Str) (code : Option Int) (e : CommandLog) (st : ExecState) : ExecState :=
  let e' := closedEntry code e
  let st1 :=
    if code ≠ some 0 then
      { st with commandLog := st.commandLog ++ [e']
                errorFile := some (st.commandLog ++ [e']) }
    else st
  { st1 with history := st1.history ++ [command]
             session := st1.session ++ [command]
             prompts := st1.prompts + 1 }

/-- The log entry as mutated by the error handler: the ANSI-stripped
message is stored and the exit code forced to 1.  `strip` abstracts the
external `strip-ansi` library. -/
def erroredEntry (strip : Str → Str) (msg : Str) (e : CommandLog) : CommandLog :=
  { e with output := { e.output with err := some (strip msg), exitCode := 1 } }

/-- The `pro.on("error", ...)` handler of `runTheCommand` (the catch
block around `spawn` behaves identically): record the error, force
`exitCode = 1`, append the entry, flush the log file, issue the next
prompt; the history file and session pool are left untouched. -/
def onError (strip : Str → Str) (msg : Str) (e : CommandLog) (st : ExecState) : ExecState :=
  let e' := erroredEntry strip msg e
  { st with commandLog := st.commandLog ++ [e']
            errorFile := some (st.commandLog ++ [e'])
            prompts := st.prompts + 1 }

/-- The mutable `defaultModel` selector. -/
inductive Model where
  | gemini
  | openAi
deriving DecidableEq

/-- The first argument of `askGemini` / `askOpenAi`. -/
inductive AiTo where
  | hm
  | hp
deriving DecidableEq

/-- External collaborators of the dispatcher, abstracted as values: the
result of `checkKey()`, the face string produced by
`getErrorMessageFace()` (util/util.ts, absent from src/), and the six
AI calls of gemini.ts / openai.ts, each returning a string. -/
structure Oracles where
  keyOk : Bool
  face : Str
  gemHm : Str
  gemHp : Str → Str
  gemMan : Str → Str
  oaHm : Str
  oaHp : Str → Str
  oaMan : Str → Str

/-- The sentinel failure value "3d8a19a704" the AI collaborators may
return. -/
def sentinelStr : Str := ("3d8a19a704".toList)

/-- The fixed message printed when a generate call returns the sentinel:
`` `${getErrorMessageFace()} Unable to process you request at the moment.` ``. -/
def unableMessage (face : Str) : Str :=
  face ++ (" Unable to process you request at the moment.".toList)

/-- The `askGemini` function of src/index.ts: `hm` always forwards to
the generator; `hp` only when the message is truthy, returning
`undefined` (`none`) otherwise. -/
def askGemini (o : Oracles) (dest : AiTo) (message : Option Str) : Option Str :=
  match dest, message with
  | AiTo.hm, _ => some o.gemHm
  | AiTo.hp, some m => if m.isEmpty then none else some (o.gemHp m)
  | AiTo.hp, none => none

/-- The `askOpenAi` function of src/index.ts, same shape as `askGemini`. -/
def askOpenAi (o : Oracles) (dest : AiTo) (message : Option Str) : Option Str :=
  match dest, message with
  | AiTo.hm, _ => some o.oaHm
  | AiTo.hp, some m => if m.isEmpty then none else some (o.oaHp m)
  | AiTo.hp, none => none

/-- What `console.log(res)` shows for a string-or-undefined value. -/
def printOpt : Option Str → Str
  | none => ("undefined".toList)
  | some s => s

/-- Observable effects of one `runShellCommand` dispatch, up to the
point where control either returns to `prompt()` or is handed to the
child-process event handlers (`dispatchedExternal`).  `historyAppends`
records the lines `saveToHistory` (util/util.ts, absent from src/,
modelled from the spec as appending one raw line per call) is asked to
write; `printed` ignores the banner/spinner cosmetics and the output of
the external `showHistory`/`catFile`/`changeDirectory` helpers. -/
structure ShellEffects where
  printed : List Str := []
  clipboard : List Str := []
  prompts : Nat := 0
  historyAppends : List Str := []
  sessionPushes : List Str := []
  closedRl : Bool := false
  dispatchedExternal : Option Str := none
deriving DecidableEq

/-- The body of `runShellCommand` after the destructuring
`const [cmd, ...args] = command.split(" ")`, branch for branch in source
order.  `checkKey`'s own prompts and console output are not modelled
(its result is the `keyOk` oracle). -/
def dispatchCmd (o : Oracles) (model : Model) (command : Str) (parts : List Str) :
    Model × ShellEffects :=
  let cmd := parts.headD []
  let args := parts.tail
  if cmd = ("cd".toList) then
    (model, { sessionPushes := [command], historyAppends := [command], prompts := 1 })
  else if cmd = ("history".toList) then
    (model, { prompts := 1 })
  else if cmd = ("cat".toList) then
    (model, { sessionPushes := [command], historyAppends := [command], prompts := 1 })
  else if cmd = ("exit".toList) then
    (model, { closedRl := true })
  else if cmd = ("switchAI".toList) then
    match model with
    | Model.openAi => (Model.gemini, { printed := [("Switched to Gemini model".toList)], prompts := 1 })
    | Model.gemini => (Model.openAi, { printed := [("Switched to OpenAI model".toList)], prompts := 1 })
  else if cmd = ("copy".toList) then
    (model, { prompts := 1 })
  else if cmd = ("hm".toList) then
    if o.keyOk then
      let res :=
        match model with
        | Model.gemini => askGemini o AiTo.hm none
        | Model.openAi => askOpenAi o AiTo.hm none
      if res = some sentinelStr then
        (model, { printed := [unableMessage o.face], prompts := 1 })
      else
        (model, { printed := [printOpt res]
                  clipboard := if jsTruthy res then [res.getD []] else []
                  prompts := 1 })
    else (model, { prompts := 1 })
  else if cmd = ("hp".toList) then
    if o.keyOk then
      let noticePrinted : List Str :=
        if args.length = 0 then [("Hey you did not enter a message.".toList)] else []
      let noticePrompts : Nat := if args.length = 0 then 1 else 0
      let message := joinSpace args
      let res :=
        match model with
        | Model.gemini => askGemini o AiTo.hp (some message)
        | Model.openAi => askOpenAi o AiTo.hp (some message)
      if res = some sentinelStr then
        (model, { printed := noticePrinted ++ [unableMessage o.face], prompts := noticePrompts + 1 })
      else
        (model, { printed := noticePrinted ++ [printOpt res]
                  clipboard := if jsTruthy res then [res.getD []] else []
                  prompts := noticePrompts + 1 })
    else (model, { prompts := 1 })
  else if cmd = ("he".toList) then
    let res :=
      match model with
      | Model.gemini => o.gemMan (joinSpace args)
      | Model.openAi => o.oaMan (joinSpace args)
    (model, { printed := [res], prompts := 1 })
  else
    (model, { dispatchedExternal := some command })

/-- The `runShellCommand` function of src/index.ts. -/
def runShellCommand (o : Oracles) (model : Model) (command : Str) : Model × ShellEffects :=
  dispatchCmd o model command (splitOnSpace command)

/-- The fragment of JSON values needed for the `.t_error` file: strings,
integers, arrays and ordered objects. -/
inductive Json where
  | str (s : Str)
  | num (n : Int)
  | arr (l : List Json)
  | obj (fields : List (Str × Json))

/-- JSON encoding of the `command` sub-object, field order as built by
`logInit`. -/
def encodeCommand (c : CommandDesc) : Json :=
  Json.obj [(("raw".toList), Json.str c.raw),
            (("executable".toList), Json.str c.executable),
            (("arguments".toList), Json.arr (c.arguments.map Json.str)),
            (("cwd".toList), Json.str c.cwd)]

/-- JSON encoding of the `output` sub-object; `JSON.stringify` omits the
`error` property while it is `undefined`. -/
def encodeOutput (u : CommandOutput) : Json :=
  Json.obj ([(("stderr".toList), Json.str u.stderr),
             (("exitCode".toList), Json.num u.exitCode)] ++
    (match u.err with
     | none => []
     | some m => [(("error".toList), Json.str m)]))

/-- JSON encoding of the `metadata` sub-object. -/
def encodeMeta (m : CommandMeta) : Json :=
  Json.obj [(("user".toList), Json.str m.user),
            (("platform".toList), Json.str m.platform),
            (("shell".toList), Json.str m.shell)]

/-- JSON encoding of one `CommandLog` entry. -/
def encodeEntry (e : CommandLog) : Json :=
  Json.obj [(("id".toList), Json.str e.id),
            (("timestamp".toList), Json.str e.timestamp),
            (("command".toList), encodeCommand e.command),
            (("output".toList), encodeOutput e.output),
            (("metadata".toList), encodeMeta e.metadata)]

/-- Modelled from the spec: `saveOutputToFile` (util/util.ts, absent
from src/) serializes the full in-memory ordered log to the JSON file,
overwriting it. -/
def saveOutputToFileJson (log : List CommandLog) : Option (Option Json) :=
  some (some (Json.arr (log.map encodeEntry)))

/-- Reading a list of JSON strings back into strings. -/
def decodeStrList : List Json → Option (List Str)
  | [] => some []
  | Json.str s :: rest => (decodeStrList rest).map (fun l => s :: l)
  | _ => none

/-- Reading the `command` sub-object back. -/
def decodeCommand : Json → Option CommandDesc
  | Json.obj [(k1, Json.str raw), (k2, Json.str exe), (k3, Json.arr args), (k4, Json.str cwd)] =>
    if k1 = ("raw".toList) ∧ k2 = ("executable".toList) ∧ k3 = ("arguments".toList) ∧ k4 = ("cwd".toList) then
      match decodeStrList args with
      | some l => some { raw := raw, executable := exe, arguments := l, cwd := cwd }
      | none => none
    else none
  | _ => none

/-- Reading the `output` sub-object back, with or without the optional
`error` field. -/
def decodeOutput : Json → Option CommandOutput
  | Json.obj [(k1, Json.str se), (k2, Json.num ec)] =>
    if k1 = ("stderr".toList) ∧ k2 = ("exitCode".toList) then
      some { stderr := se, exitCode := ec, err := none }
    else none
  | Json.obj [(k1, Json.str se), (k2, Json.num ec), (k3, Json.str em)] =>
    if k1 = ("stderr".toList) ∧ k2 = ("exitCode".toList) ∧ k3 = ("error".toList) then
      some { stderr := se, exitCode := ec, err := some em }
    else none
  | _ => none

/-- Reading the `metadata` sub-object back. -/
def decodeMeta : Json → Option CommandMeta
  | Json.obj [(k1, Json.str u), (k2, Json.str p), (k3, Json.str sh)] =>
    if k1 = ("user".toList) ∧ k2 = ("platform".toList) ∧ k3 = ("shell".toList) then
      some { user := u, platform := p, shell := sh }
    else none
  | _ => none

/-- Reading one entry back. -/
def decodeEntry : Json → Option CommandLog
  | Json.obj [(k1, Json.str i), (k2, Json.str ts), (k3, jc), (k4, ju), (k5, jm)] =>
    if k1 = ("id".toList) ∧ k2 = ("timestamp".toList) ∧ k3 = ("command".toList) ∧
        k4 = ("output".toList) ∧ k5 = ("metadata".toList) then
      match decodeCommand jc, decodeOutput ju, decodeMeta jm with
      | some c, some u, some m =>
        some { id := i, timestamp := ts, command := c, output := u, metadata := m }
      | _, _, _ => none
    else none
  | _ => none

/-- Reading a whole entry array back. -/
def decodeEntries : List Json → Option (List CommandLog)
  | [] => some []
  | j :: rest =>
    match decodeEntry j, decodeEntries rest with
    | some e, some es => some (e :: es)
    | _, _ => none

/-- Reading the whole log file value back. -/
def decodeLog : Json → Option (List CommandLog)
  | Json.arr l => decodeEntries l
  | _ => none

/-- The `loadCommandErrors` function of src/index.ts over the `.t_error`
file state: `none` when the file does not exist, `some none` when its
text does not parse as JSON (`JSON.parse` throws and the catch block
runs), `some (some j)` when it parses to the value `j`.  Both failure
modes yield the empty log; `JSON.parse` of a well-formed file is the
value-level identity, made explicit by `decodeLog`. -/
def loadCommandErrors (file : Option (Option Json)) : List CommandLog :=
  match file with
  | none => []
  | some none => []
  | some (some j) => (decodeLog j).getD []

theorem decodeStrList_map (l : List Str) : decodeStrList (l.map Json.str) = some l := by
  induction l with
  | nil => rfl
  | cons s rest ih => simp [decodeStrList, ih]

theorem decodeCommand_encode (c : CommandDesc) : decodeCommand (encodeCommand c) = some c := by
  simp [encodeCommand, decodeCommand, decodeStrList_map]

theorem decodeOutput_encode (u : CommandOutput) : decodeOutput (encodeOutput u) = some u := by
  cases h : u.err <;> simp [encodeOutput, decodeOutput, h] <;> cases u <;> simp_all

theorem decodeMeta_encode (m : CommandMeta) : decodeMeta (encodeMeta m) = some m := by
  simp [encodeMeta, decodeMeta]

theorem decodeEntry_encode (e : CommandLog) : decodeEntry (encodeEntry e) = some e := by
  simp [encodeEntry, decodeEntry, decodeCommand_encode, decodeOutput_encode, decodeMeta_encode]

theorem decodeEntries_map (l : List CommandLog) : decodeEntries (l.map encodeEntry) = some l := by
  induction l with
  | nil => rfl
  | cons e rest ih => simp [decodeEntries, decodeEntry_encode, ih]

/-- C1 (amended): for every non-blank buffer, cursor position, and state
of the session and historical pools, the suggestion computation scans
the pools in order session, then historical, then static common
commands; each pool contributes the last (most recently added) entry
whose lowercase form starts with the lowercase prefix (buffer up to
cursor), and the computation returns the first pool contribution that is
a non-empty string — a pool whose last matching entry is the empty
string is skipped like a pool with no match — and the empty string when
no pool yields a non-empty match. -/
theorem C1_theorem (input : Str) (cursor : Nat) (curSessionCmds histCmds : List Str)
    (h : ¬ trimJs input = []) :
    updateSuggestion input cursor curSessionCmds histCmds =
      firstNonEmptyMatch (lower (input.take cursor)) [curSessionCmds, histCmds, commonCommands] :=
  updateSuggestion_spec input cursor curSessionCmds histCmds h

/-- C1, as frozen, fails on the code: with buffer "x", cursor 0 (an
empty search prefix), a session pool whose only entry is the empty
string, and an empty historical pool, the session pool does contain a
matching entry, so the claimed procedure returns that (empty) entry,
while the code falls through to the static pool and returns "exit". -/
theorem C1_counterexample :
    updateSuggestion ("x".toList) 0 [([] : Str)] [] = ("exit".toList) ∧
    claimFirstPoolMatch (lower (("x".toList).take 0)) [[([] : Str)], [], commonCommands] = [] ∧
    ("exit".toList) ≠ ([] : Str) :=
  ⟨by decide, by decide, by decide⟩

theorem C1_witness :
    updateSuggestion ("gi".toList) 2 [("git status".toList), ("git push origin".toList)] [] =
      ("git push origin".toList) := by
  rw [C1_theorem ("gi".toList) 2 [("git status".toList), ("git push origin".toList)] [] (by decide)]
  decide

/-- C4 (amended): the suggestion is computed against the substring of
the buffer up to the cursor — two buffers agreeing up to their cursors
get the same suggestion — and whenever the whole buffer (not the prefix
up to the cursor) is empty or whitespace-only the computation yields no
suggestion. -/
theorem C4_theorem :
    (∀ (input : Str) (cursor : Nat) (curSessionCmds histCmds : List Str),
      trimJs input = [] → updateSuggestion input cursor curSessionCmds histCmds = []) ∧
    (∀ (input input' : Str) (cursor cursor' : Nat) (curSessionCmds histCmds : List Str),
      ¬ trimJs input = [] → ¬ trimJs input' = [] → input.take cursor = input'.take cursor' →
      updateSuggestion input cursor curSessionCmds histCmds =
        updateSuggestion input' cursor' curSessionCmds histCmds) := by
  constructor
  · intro input cursor s h hblank
    simp [updateSuggestion, hblank]
  · intro input input' c c' s h h1 h2 heq
    rw [updateSuggestion_spec input c s h h1, updateSuggestion_spec input' c' s h h2, heq]

/-- C4, as frozen, fails on the code: the blank-input guard inspects the
whole buffer, not the prefix up to the cursor, so buffer "x" with cursor
0 has an empty prefix yet produces the suggestion "git status" from the
session pool instead of no suggestion. -/
theorem C4_counterexample :
    ("x".toList).take 0 = [] ∧
    updateSuggestion ("x".toList) 0 [("git status".toList)] [] = ("git status".toList) ∧
    ("git status".toList) ≠ ([] : Str) :=
  ⟨by decide, by decide, by decide⟩

theorem C4_witness :
    updateSuggestion (" ".toList) 1 [("ls".toList)] [] = [] ∧
    updateSuggestion ("ab".toList) 1 [("ls".toList)] [] =
      updateSuggestion ("ax".toList) 1 [("ls".toList)] [] :=
  ⟨C4_theorem.1 (" ".toList) 1 [("ls".toList)] [] (by decide),
   C4_theorem.2 ("ab".toList) ("ax".toList) 1 1 [("ls".toList)] [] (by decide) (by decide) (by decide)⟩

/-- C7: whenever the overridden refresh renders ghost text, the
suggestion's lowercase form starts with the lowercase form of the buffer
up to the cursor; a suggestion violating this is never rendered as ghost
text. -/
theorem C7_theorem (st : RenderState) (g : Str) (h : refreshGhost st = some g) :
    (lower (st.line.take st.cursor)).isPrefixOf (lower st.currentSuggestion) = true := by
  unfold refreshGhost at h
  split at h
  · split at h
    · rename_i hpre
      exact isPrefixOf_trans
        (isPrefixOf_map Char.toLower (isPrefixOf_take st.line st.cursor)) (isPrefixOf_map Char.toLower hpre)
    · exact absurd h (by simp)
  · exact absurd h (by simp)

theorem C7_witness :
    (lower ((("git".toList) : Str).take 3)).isPrefixOf (lower ("git status".toList)) = true :=
  C7_theorem { currentSuggestion := ("git status".toList), line := ("git".toList),
               cursor := 3, bypassRlLine := false } (" status".toList) (by decide)

/-- C2: a close event with nonzero exit code `c` persists exactly one
new failure-log entry, whose `exitCode` is `c` and whose `command.raw`
is the raw command text; a close event with exit code 0 persists
nothing new but appends exactly one line — the raw command — to the
history file. -/
theorem C2_theorem (command id ts cwd user plat sh : Str) (c : Int) (st : ExecState)
    (hsync : st.errorFile = some st.commandLog) :
    (c ≠ 0 →
      (onClose command (some c) (logInit command id ts cwd user plat sh) st).errorFile =
        some (st.commandLog ++ [closedEntry (some c) (logInit command id ts cwd user plat sh)]) ∧
      (closedEntry (some c) (logInit command id ts cwd user plat sh)).output.exitCode = c ∧
      (closedEntry (some c) (logInit command id ts cwd user plat sh)).command.raw = command) ∧
    (c = 0 →
      (onClose command (some c) (logInit command id ts cwd user plat sh) st).errorFile =
        some st.commandLog ∧
      (onClose command (some c) (logInit command id ts cwd user plat sh) st).commandLog =
        st.commandLog ∧
      (onClose command (some c) (logInit command id ts cwd user plat sh) st).history =
        st.history ++ [command]) := by
  constructor
  · intro hc
    refine ⟨?_, ?_, rfl⟩
    · simp [onClose, hc]
    · simp [closedEntry, jsNumOr, logInit, hc]
  · intro hc
    subst hc
    refine ⟨?_, ?_, ?_⟩ <;> simp [onClose, hsync]

def execSt0 : ExecState :=
  { commandLog := [], errorFile := some [], history := [], session := [], prompts := 0 }

theorem C2_witness :
    ((onClose ("false".toList) (some 1)
        (logInit ("false".toList) ("cmd_1".toList) ("t0".toList) ("/h".toList) ("u".toList) ("l".toList) ("sh".toList))
        execSt0).errorFile =
      some (execSt0.commandLog ++
        [closedEntry (some 1)
          (logInit ("false".toList) ("cmd_1".toList) ("t0".toList) ("/h".toList) ("u".toList) ("l".toList) ("sh".toList))]) ∧
      (closedEntry (some 1)
        (logInit ("false".toList) ("cmd_1".toList) ("t0".toList) ("/h".toList) ("u".toList) ("l".toList) ("sh".toList))).output.exitCode = 1 ∧
      (closedEntry (some 1)
        (logInit ("false".toList) ("cmd_1".toList) ("t0".toList) ("/h".toList) ("u".toList) ("l".toList) ("sh".toList))).command.raw =
        ("false".toList)) ∧
    (onClose ("true".toList) (some 0)
        (logInit ("true".toList) ("cmd_2".toList) ("t1".toList) ("/h".toList) ("u".toList) ("l".toList) ("sh".toList))
        execSt0).history = execSt0.history ++ [("true".toList)] :=
  ⟨(C2_theorem ("false".toList) ("cmd_1".toList) ("t0".toList) ("/h".toList) ("u".toList) ("l".toList) ("sh".toList)
      1 execSt0 rfl).1 (by decide),
   ((C2_theorem ("true".toList) ("cmd_2".toList) ("t1".toList) ("/h".toList) ("u".toList) ("l".toList) ("sh".toList)
      0 execSt0 rfl).2 rfl).2.2⟩

/-- C3: the launch-error handler records the (ANSI-stripped) error
message — non-empty whenever the stripped message is — forces the exit
code to 1, appends the entry to the in-memory log, flushes the log file
so that it holds the full log including the new entry, and advances to
the next prompt. -/
theorem C3_theorem (strip : Str → Str) (msg : Str) (e : CommandLog) (st : ExecState)
    (h : strip msg ≠ []) :
    (onError strip msg e st).commandLog = st.commandLog ++ [erroredEntry strip msg e] ∧
    (onError strip msg e st).errorFile = some (st.commandLog ++ [erroredEntry strip msg e]) ∧
    (erroredEntry strip msg e).output.err = some (strip msg) ∧
    strip msg ≠ [] ∧
    (erroredEntry strip msg e).output.exitCode = 1 ∧
    (onError strip msg e st).prompts = st.prompts + 1 :=
  ⟨rfl, rfl, rfl, h, rfl, rfl⟩

def entry0 : CommandLog :=
  logInit ("doesnotexist123".toList) ("cmd_3".toList) ("t2".toList) ("/h".toList)
    ("u".toList) ("l".toList) ("sh".toList)

theorem C3_witness :
    (onError (fun s => s) ("spawn doesnotexist123 ENOENT".toList) entry0 execSt0).commandLog =
      execSt0.commandLog ++ [erroredEntry (fun s => s) ("spawn doesnotexist123 ENOENT".toList) entry0] ∧
    (onError (fun s => s) ("spawn doesnotexist123 ENOENT".toList) entry0 execSt0).errorFile =
      some (execSt0.commandLog ++ [erroredEntry (fun s => s) ("spawn doesnotexist123 ENOENT".toList) entry0]) ∧
    (erroredEntry (fun s => s) ("spawn doesnotexist123 ENOENT".toList) entry0).output.err =
      some ((fun s => s) ("spawn doesnotexist123 ENOENT".toList)) ∧
    (fun s => s) ("spawn doesnotexist123 ENOENT".toList) ≠ [] ∧
    (erroredEntry (fun s => s) ("spawn doesnotexist123 ENOENT".toList) entry0).output.exitCode = 1 ∧
    (onError (fun s => s) ("spawn doesnotexist123 ENOENT".toList) entry0 execSt0).prompts =
      execSt0.prompts + 1 :=
  C3_theorem (fun s => s) ("spawn doesnotexist123 ENOENT".toList) entry0 execSt0 (by decide)

/-- C9: a close event delivering a `null` exit code records
`output.exitCode = 0` in the log entry, yet still appends the entry to
the in-memory log and persists it to the failure-log file, because the
persistence check compares the raw close code (`null`) with 0. -/
theorem C9_theorem (command id ts cwd user plat sh : Str) (st : ExecState) :
    (closedEntry none (logInit command id ts cwd user plat sh)).output.exitCode = 0 ∧
    (onClose command none (logInit command id ts cwd user plat sh) st).commandLog =
      st.commandLog ++ [closedEntry none (logInit command id ts cwd user plat sh)] ∧
    (onClose command none (logInit command id ts cwd user plat sh) st).errorFile =
      some (st.commandLog ++ [closedEntry none (logInit command id ts cwd user plat sh)]) := by
  refine ⟨rfl, ?_, ?_⟩ <;> simp [onClose]

/-- C8: persisting any list of failing command log entries and reloading
the log file at a fresh startup reproduces all entries with identical
field values; a missing log file and an unparsable log file both load as
the empty log. -/
theorem C8_theorem (log : List CommandLog) :
    loadCommandErrors (saveOutputToFileJson log) = log ∧
    loadCommandErrors none = [] ∧
    loadCommandErrors (some none) = [] := by
  refine ⟨?_, rfl, rfl⟩
  simp [loadCommandErrors, saveOutputToFileJson, decodeLog, decodeEntries_map]

/-- C10: entering `hp` with zero arguments while the API key check
succeeds prints the missing-message notice and issues the next prompt,
then — control not having returned — invokes the AI call with the empty
message, which yields `undefined`; that result is printed but not copied
to the clipboard, and the next prompt fires a second time, so the
next-prompt transition fires twice for this one input line. -/
theorem C10_theorem (o : Oracles) (m : Model) (h : o.keyOk = true) :
    (runShellCommand o m ("hp".toList)).2.prompts = 2 ∧
    (runShellCommand o m ("hp".toList)).2.printed =
      [("Hey you did not enter a message.".toList), ("undefined".toList)] ∧
    (runShellCommand o m ("hp".toList)).2.clipboard = [] ∧
    askGemini o AiTo.hp (some (joinSpace ([] : List Str))) = none ∧
    askOpenAi o AiTo.hp (some (joinSpace ([] : List Str))) = none := by
  cases m <;>
    simp [runShellCommand, dispatchCmd, splitOnSpace, h, askGemini, askOpenAi,
      joinSpace, printOpt, jsTruthy, sentinelStr]

/-- A concrete oracle assignment: key check passes, every collaborator
answers with the empty string. -/
def o0 : Oracles :=
  { keyOk := true, face := [], gemHm := [], gemHp := fun _ => [], gemMan := fun _ => [],
    oaHm := [], oaHp := fun _ => [], oaMan := fun _ => [] }

theorem C10_witness :
    (runShellCommand o0 Model.gemini ("hp".toList)).2.prompts = 2 ∧
    (runShellCommand o0 Model.gemini ("hp".toList)).2.printed =
      [("Hey you did not enter a message.".toList), ("undefined".toList)] ∧
    (runShellCommand o0 Model.gemini ("hp".toList)).2.clipboard = [] ∧
    askGemini o0 AiTo.hp (some (joinSpace ([] : List Str))) = none ∧
    askOpenAi o0 AiTo.hp (some (joinSpace ([] : List Str))) = none :=
  C10_theorem o0 Model.gemini rfl

/-- The generate-from-clipboard-context result the `hm` branch sees for
the active provider. -/
def hmRes (o : Oracles) : Model → Option Str
  | Model.gemini => askGemini o AiTo.hm none
  | Model.openAi => askOpenAi o AiTo.hm none

/-- The generate-from-message result the `hp` branch sees for the active
provider. -/
def hpRes (o : Oracles) (m : Model) (message : Str) : Option Str :=
  match m with
  | Model.gemini => askGemini o AiTo.hp (some message)
  | Model.openAi => askOpenAi o AiTo.hp (some message)

/-- The explain/translate result the `he` branch sees for the active
provider. -/
def manRes (o : Oracles) (m : Model) (message : Str) : Str :=
  match m with
  | Model.gemini => o.gemMan message
  | Model.openAi => o.oaMan message

/-- C5 (amended): for the generate commands `hm` and `hp`, a collaborator
return equal to the sentinel causes the fixed "unable to process" message
to be printed instead of the returned text and nothing to be copied to
the clipboard; the explain/translate command `he` performs no sentinel
check — it prints the collaborator's return value verbatim, even when it
is the sentinel, and never copies to the clipboard. -/
theorem C5_theorem (o : Oracles) (m : Model) (command : Str) (args : List Str) :
    (o.keyOk = true → hmRes o m = some sentinelStr →
      (dispatchCmd o m command (("hm".toList) :: args)).2.printed = [unableMessage o.face] ∧
      (dispatchCmd o m command (("hm".toList) :: args)).2.clipboard = []) ∧
    (o.keyOk = true → args ≠ [] → hpRes o m (joinSpace args) = some sentinelStr →
      (dispatchCmd o m command (("hp".toList) :: args)).2.printed = [unableMessage o.face] ∧
      (dispatchCmd o m command (("hp".toList) :: args)).2.clipboard = []) ∧
    ((dispatchCmd o m command (("he".toList) :: args)).2.printed = [manRes o m (joinSpace args)] ∧
     (dispatchCmd o m command (("he".toList) :: args)).2.clipboard = []) := by
  refine ⟨?_, ?_, ?_⟩
  · intro hk hs
    cases m <;> simp_all [dispatchCmd, hmRes, askGemini, askOpenAi]
  · intro hk ha hs
    have hl : args.length ≠ 0 := fun h0 => ha (List.length_eq_zero.mp h0)
    cases m <;> simp_all [dispatchCmd, hpRes, askGemini, askOpenAi]
  · cases m <;> simp [dispatchCmd, manRes]

/-- A concrete oracle assignment where every AI collaborator returns the
sentinel failure value. -/
def oSent : Oracles :=
  { keyOk := true, face := ("(x_x)".toList),
    gemHm := sentinelStr, gemHp := fun _ => sentinelStr, gemMan := fun _ => sentinelStr,
    oaHm := sentinelStr, oaHp := fun _ => sentinelStr, oaMan := fun _ => sentinelStr }

/-- C5, as frozen, fails on the code: when the explain/translate command
`he ls` gets the sentinel back from the collaborator, the sentinel text
itself is printed, not the fixed "unable to process" message. -/
theorem C5_counterexample :
    (runShellCommand oSent Model.gemini ("he ls".toList)).2.printed = [sentinelStr] ∧
    sentinelStr ≠ unableMessage oSent.face :=
  ⟨rfl, by decide⟩

theorem C5_witness :
    ((dispatchCmd oSent Model.gemini ("hm".toList) [("hm".toList)]).2.printed =
       [unableMessage oSent.face] ∧
     (dispatchCmd oSent Model.gemini ("hm".toList) [("hm".toList)]).2.clipboard = []) ∧
    ((dispatchCmd oSent Model.gemini ("hp ls".toList) [("hp".toList), ("ls".toList)]).2.printed =
       [unableMessage oSent.face] ∧
     (dispatchCmd oSent Model.gemini ("hp ls".toList) [("hp".toList), ("ls".toList)]).2.clipboard = []) ∧
    ((dispatchCmd oSent Model.gemini ("he ls".toList) [("he".toList), ("ls".toList)]).2.printed =
       [manRes oSent Model.gemini (joinSpace [("ls".toList)])] ∧
     (dispatchCmd oSent Model.gemini ("he ls".toList) [("he".toList), ("ls".toList)]).2.clipboard = []) :=
  ⟨(C5_theorem oSent Model.gemini ("hm".toList) []).1 rfl (by decide),
   (C5_theorem oSent Model.gemini ("hp ls".toList) [("ls".toList)]).2.1 rfl (by decide) (by decide),
   (C5_theorem oSent Model.gemini ("he ls".toList) [("ls".toList)]).2.2⟩

/-- C6 (amended): the raw command string is appended to the history file
only for the `cd` and `cat` built-ins and for externally executed
commands whose child process reaches the close event; the `history`,
`exit`, `switchAI`, `copy`, `hm`, `hp` and `he` built-ins append
nothing, and neither does the external launch-error path. -/
theorem C6_theorem (o : Oracles) (m : Model) (command : Str) :
    ((splitOnSpace command).headD [] = ("cd".toList) →
      (runShellCommand o m command).2.historyAppends = [command]) ∧
    ((splitOnSpace command).headD [] = ("cat".toList) →
      (runShellCommand o m command).2.historyAppends = [command]) ∧
    ((splitOnSpace command).headD [] = ("history".toList) →
      (runShellCommand o m command).2.historyAppends = []) ∧
    ((splitOnSpace command).headD [] = ("exit".toList) →
      (runShellCommand o m command).2.historyAppends = []) ∧
    ((splitOnSpace command).headD [] = ("switchAI".toList) →
      (runShellCommand o m command).2.historyAppends = []) ∧
    ((splitOnSpace command).headD [] = ("copy".toList) →
      (runShellCommand o m command).2.historyAppends = []) ∧
    ((splitOnSpace command).headD [] = ("hm".toList) →
      (runShellCommand o m command).2.historyAppends = []) ∧
    ((splitOnSpace command).headD [] = ("hp".toList) →
      (runShellCommand o m command).2.historyAppends = []) ∧
    ((splitOnSpace command).headD [] = ("he".toList) →
      (runShellCommand o m command).2.historyAppends = []) ∧
    (∀ (code : Option Int) (e : CommandLog) (st : ExecState),
      (onClose command code e st).history = st.history ++ [command]) ∧
    (∀ (strip : Str → Str) (msg : Str) (e : CommandLog) (st : ExecState),
      (onError strip msg e st).history = st.history) := by
  refine ⟨?_, ?_, ?_, ?_, ?_, ?_, ?_, ?_, ?_, ?_, ?_⟩
  case refine_10 =>
    intro code e st
    simp only [onClose]
    split <;> rfl
  case refine_11 =>
    intro strip msg e st
    rfl
  all_goals
    intro h
    cases hsp : splitOnSpace command with
    | nil => rw [hsp] at h; exact absurd h (by decide)
    | cons p rest =>
      rw [hsp, List.headD_cons] at h
      subst h
      simp only [runShellCommand]
      rw [hsp]
      first
      | rfl
      | (cases m <;> rfl)
      | (cases m <;>
          (simp [dispatchCmd, askGemini, askOpenAi]
           split <;> first | rfl | (split <;> rfl)))

/-- C6, as frozen, fails on the code: the built-in `history` command is
dispatched successfully (its branch runs and re-prompts) yet appends
nothing to the history file. -/
theorem C6_counterexample :
    (runShellCommand o0 Model.gemini ("history".toList)).2.historyAppends = [] ∧
    (runShellCommand o0 Model.gemini ("history".toList)).2.prompts = 1 ∧
    ([] : List Str) ≠ [("history".toList)] :=
  ⟨rfl, rfl, by decide⟩

theorem C6_witness :
    (runShellCommand o0 Model.gemini ("cd /tmp".toList)).2.historyAppends = [("cd /tmp".toList)] ∧
    (runShellCommand o0 Model.gemini ("hm".toList)).2.historyAppends = [] :=
  ⟨(C6_theorem o0 Model.gemini ("cd /tmp".toList)).1 (by decide),
   (C6_theorem o0 Model.gemini ("hm".toList)).2.2.2.2.2.2.1 (by decide)⟩
